import Mathlib

/-!
Verification of the recognition-cycle engine of `src/main_skilletz.py`
(class `VoiceRecognitionApp`).

The Python source is shallowly embedded below:

* Python string primitives used by the source (`str.splitlines`,
  `str.strip`, `str.lower`, `str.split`) are modelled as executable
  functions over `List Char` / `String`.
* The vocabulary files (`models/es_names.txt`, `models/it_names.txt`,
  `models/br_names.txt`) are modelled as a record `FS` of their contents,
  with read/append operations.
* `load_grammar`, `update_grammar` and `reset_session` are translated
  line by line.
* The Streamlit rerun loop of `run` is modelled as a step function over
  the session state (`current_cycle`, `recognition_active`,
  `show_manual_input`, `manual_submitted`) driven by the UI events that
  `run` reacts to (start, reset, accept, reject, manual submit).
-/

namespace Skilletz

/-! ### Python string primitives -/

/-- Characters treated as whitespace by Python's `str.strip` / `str.split`
(ASCII subset; the source only handles ASCII names). -/
def pyIsSpace (c : Char) : Bool :=
  c = ' ' || c = '\t' || c = '\n' || c = '\r' || c = '\x0b' || c = '\x0c'

/-- Python `str.lower` (ASCII). -/
def pyLower (s : String) : String :=
  String.mk (s.data.map Char.toLower)

/-- Python `str.strip()` with no argument: drop leading and trailing
whitespace. -/
def pyStrip (s : String) : String :=
  String.mk (((s.data.dropWhile pyIsSpace).reverse.dropWhile pyIsSpace).reverse)

/-- Core of Python `str.splitlines` (on `'\n'`, the only line separator
occurring in the vocabulary files): split the character list at every
newline; the chunk after the last newline is emitted only if nonempty. -/
def pySplitlinesList : List Char → List Char → List String
  | [], acc => if acc.isEmpty then [] else [String.mk acc.reverse]
  | c :: cs, acc =>
      if c = '\n' then String.mk acc.reverse :: pySplitlinesList cs []
      else pySplitlinesList cs (c :: acc)

/-- Variant of `pySplitlinesList` that always emits the trailing chunk,
even when it is empty.  Used to describe how `splitlines` acts on the
part of a string that is followed by one more newline. -/
def splitChunksAll : List Char → List Char → List String
  | [], acc => [String.mk acc.reverse]
  | c :: cs, acc =>
      if c = '\n' then String.mk acc.reverse :: splitChunksAll cs []
      else splitChunksAll cs (c :: acc)

/-- Python `str.splitlines` on a `String`. -/
def pySplitlines (s : String) : List String :=
  pySplitlinesList s.data []

/-- Core of Python `str.split()` with no argument: split on runs of
whitespace, never producing empty tokens. -/
def pySplitWsList : List Char → List Char → List String
  | [], acc => if acc.isEmpty then [] else [String.mk acc.reverse]
  | c :: cs, acc =>
      if pyIsSpace c then
        if acc.isEmpty then pySplitWsList cs []
        else String.mk acc.reverse :: pySplitWsList cs []
      else pySplitWsList cs (c :: acc)

/-- Python `str.split()` on a `String`. -/
def pySplitWs (s : String) : List String :=
  pySplitWsList s.data []

end Skilletz

namespace Skilletz

/-! ### GrammarStore: `load_grammar`, the vocabulary files, `update_grammar` -/

/-- Source lines 62-78, `load_grammar`: `words = file.read().splitlines()`.
The grammar is the list of lines of the backing file (the source then
serializes it with `json.dumps`, which is injective on lists of strings,
so the list itself is the faithful model of the grammar value). -/
def load_grammar (content : String) : List String :=
  pySplitlines content

/-- Contents of the three vocabulary files owned by the application. -/
structure FS where
  es : String
  br : String
  it : String
deriving DecidableEq, Repr

/-- Source lines 176-181: choose the grammar file from `language_choice`
(`else` falls through to the Brazilian file). -/
def grammar_file (language_choice : String) : String :=
  if language_choice = "es-ES" then "models/es_names.txt"
  else if language_choice = "it-IT" then "models/it_names.txt"
  else "models/br_names.txt"

/-- Read a vocabulary file. -/
def readFS (fs : FS) (path : String) : String :=
  if path = "models/es_names.txt" then fs.es
  else if path = "models/it_names.txt" then fs.it
  else fs.br

/-- Append text to a vocabulary file (Python `open(path, 'a')` followed by
`write`). -/
def appendFS (fs : FS) (path : String) (txt : String) : FS :=
  if path = "models/es_names.txt" then ⟨fs.es ++ txt, fs.br, fs.it⟩
  else if path = "models/it_names.txt" then ⟨fs.es, fs.br, fs.it ++ txt⟩
  else ⟨fs.es, fs.br ++ txt, fs.it⟩

/-- Source lines 169-200, `update_grammar`: read the existing words, and
iff the stripped lowercased text is not already present (comparing
against the lowercased existing words), append `"\n" + new_text.strip()`
to the file and reload the in-memory grammar from it; in both branches
return `True`.  The result models `(return value, file system,
self.grammar)`. -/
def update_grammar (language_choice : String) (fs : FS) (grammar : List String)
    (new_text : String) : Bool × FS × List String :=
  let gf := grammar_file language_choice
  let existing_words := pySplitlines (readFS fs gf)
  if pyLower (pyStrip new_text) ∉ existing_words.map pyLower then
    let fs2 := appendFS fs gf ("\n" ++ pyStrip new_text)
    let grammar2 := load_grammar (readFS fs2 (grammar_file language_choice))
    (true, fs2, grammar2)
  else
    (true, fs, grammar)

/-- Case-insensitive membership test used by the source (line 188):
`new_text.strip().lower() in (word.lower() for word in words)`. -/
def containsCI (grammar : List String) (candidate : String) : Prop :=
  pyLower (pyStrip candidate) ∈ grammar.map pyLower

instance (g : List String) (c : String) : Decidable (containsCI g c) := by
  unfold containsCI; infer_instance

/-- Grammar invariant asserted by the specification: no two entries equal
under case-insensitive comparison, all entries trimmed, no empty entry. -/
def grammarInvariant (g : List String) : Prop :=
  (g.map pyLower).Nodup ∧ (∀ w ∈ g, pyStrip w = w) ∧ "" ∉ g

instance (g : List String) : Decidable (grammarInvariant g) := by
  unfold grammarInvariant; infer_instance

end Skilletz

namespace Skilletz

/-! ### Session state and the cycle state machine of `run` -/

/-- The per-run escalation profiles, source lines 258-262. -/
def recognition_cycles : List (Nat × Nat) :=
  [(16000, 2048), (32000, 4096), (44100, 8192)]

/-- The session-state fields that drive the cycle, source lines 215-218
and 228-235. -/
structure SessState where
  current_cycle : Nat
  recognition_active : Bool
  show_manual_input : Bool
  manual_submitted : Bool
deriving DecidableEq, Repr

/-- The initial / reset session state (source lines 215-218): tier 0, all
flags false. -/
def resetState : SessState := ⟨0, false, false, false⟩

/-- User events the `run` loop reacts to in a single Streamlit rerun. -/
inductive Ev where
  | start
  | reset
  | accept
  | reject
  | submit (text : String)
deriving DecidableEq

/-- One rerun of `run` restricted to its effect on the session state:

* reset button (lines 269-270) calls `reset_session`;
* start button (lines 272-276) activates recognition at cycle 0 and hides
  manual input;
* manual submit (lines 290-298) fires only when the manual input is shown
  and the text is truthy (nonempty), and ends in `reset_session`;
* accept (lines 337-339) fires only when manual input is hidden,
  recognition is active and `current_cycle < len(recognition_cycles)`
  (the guards on lines 300-303), and calls `reset_session`;
* reject (lines 341-349) fires under the same guards: at the last cycle
  it shows manual input and deactivates recognition, otherwise it
  increments `current_cycle`. -/
def step (s : SessState) : Ev → SessState
  | .reset => resetState
  | .start => ⟨0, true, false, s.manual_submitted⟩
  | .submit t =>
      if s.show_manual_input = true ∧ t ≠ "" then resetState else s
  | .accept =>
      if s.show_manual_input = false ∧ s.recognition_active = true ∧
          s.current_cycle < recognition_cycles.length then
        resetState
      else s
  | .reject =>
      if s.show_manual_input = false ∧ s.recognition_active = true ∧
          s.current_cycle < recognition_cycles.length then
        if s.current_cycle = recognition_cycles.length - 1 then
          ⟨s.current_cycle, false, true, s.manual_submitted⟩
        else
          ⟨s.current_cycle + 1, s.recognition_active, s.show_manual_input,
            s.manual_submitted⟩
      else s

end Skilletz

namespace Skilletz

/-! ### `st.session_state` as a key-value store and `reset_session` -/

/-- Values stored in `st.session_state` by the source. -/
inductive SVal where
  | s : String → SVal
  | n : Nat → SVal
  | b : Bool → SVal
deriving DecidableEq, Repr

/-- The Streamlit session state: an insertion-ordered key-value store. -/
abbrev SessionMap := List (String × SVal)

/-- Attribute / key read on the session state. -/
def lookupKey (m : SessionMap) (k : String) : Option SVal :=
  (m.find? (fun p => p.1 == k)).map (fun p => p.2)

/-- Attribute / key assignment on the session state. -/
def setKey (m : SessionMap) (k : String) (v : SVal) : SessionMap :=
  if (m.find? (fun p => p.1 == k)).isSome then
    m.map (fun p => if p.1 == k then (k, v) else p)
  else
    m ++ [(k, v)]

/-- Source lines 202-218, `reset_session`: read `language_choice` with
default `'es-ES'` (`getattr(st.session_state, 'language_choice',
'es-ES')`), delete every session-state key, then restore
`language_choice` and set `current_cycle = 0` and the three flags to
`False`. -/
def reset_session (m : SessionMap) : SessionMap :=
  let language_choice := (lookupKey m "language_choice").getD (SVal.s "es-ES")
  let cleared : SessionMap := []
  setKey (setKey (setKey (setKey
    (setKey cleared "language_choice" language_choice)
    "current_cycle" (SVal.n 0))
    "recognition_active" (SVal.b false))
    "show_manual_input" (SVal.b false))
    "manual_submitted" (SVal.b false)

end Skilletz

namespace Skilletz

/-! ### Candidate extraction and the full machine with grammar effects -/

/-- Source lines 321-323: `words = recognized_text.split()`;
`last_name = " ".join(words[-1:]) if len(words) >= 1 else
recognized_text`. -/
def last_name (recognized_text : String) : String :=
  let words := pySplitWs recognized_text
  if words.length ≥ 1 then
    String.intercalate " " (words.drop (words.length - 1))
  else recognized_text

/-- Source lines 300-332: when recognition is active, manual input is
hidden and the cycle index is in range, one attempt runs under
`recognition_cycles[current_cycle]` and presents the candidate extracted
from the transcript, together with the tier used, for confirmation;
otherwise no attempt runs. -/
def attempt_result (s : SessState) (recognized_text : String) :
    Option (String × Nat) :=
  if s.show_manual_input = false ∧ s.recognition_active = true ∧
      s.current_cycle < recognition_cycles.length then
    some (last_name recognized_text, s.current_cycle)
  else none

/-- The session state together with the vocabulary files and the
in-memory grammar (`self.grammar`). -/
structure AppFull where
  sess : SessState
  fs : FS
  grammar : List String
deriving DecidableEq, Repr

/-- `step` extended with the grammar side effects of a manual submission
(source lines 290-298: guard `if submit_button and manual_text:`, then
`update_grammar` followed by `reset_session`). -/
def fullStep (language_choice : String) (a : AppFull) : Ev → AppFull
  | .submit t =>
      if a.sess.show_manual_input = true ∧ t ≠ "" then
        let r := update_grammar language_choice a.fs a.grammar t
        ⟨resetState, r.2.1, r.2.2⟩
      else a
  | e => ⟨step a.sess e, a.fs, a.grammar⟩

/-- Spanish vocabulary file containing `garcia` and `lopez`. -/
def fs0 : FS := ⟨"garcia\nlopez", "", ""⟩

/-- The in-memory grammar loaded from `fs0`. -/
def g0 : List String := ["garcia", "lopez"]

/-- The manual-fallback state reached after three rejections. -/
def fallback0 : SessState := ⟨2, false, true, false⟩

/-- Submitting `Fernandez` from manual fallback. -/
def c4run : AppFull := fullStep "es-ES" ⟨fallback0, fs0, g0⟩ (Ev.submit "Fernandez")

/-- Submitting a single space from manual fallback. -/
def c5run : AppFull := fullStep "es-ES" ⟨fallback0, fs0, g0⟩ (Ev.submit " ")

/-- Source lines 183-198 with the fallible file operations made explicit:
Python `open(path, 'a')`/`write` in the append and `open(path, 'r')` in
the reload can raise `OSError`, and `update_grammar` contains no
`try`/`except` (contrast `synthesize_speech`, lines 127-167, which
wraps its body in one), so a failure propagates out of the method as an
exception, modelled by `Except.error`.  The two flags say whether the
append write, respectively the reload read, fails. -/
def update_grammarE (language_choice : String) (fs : FS)
    (grammar : List String) (new_text : String)
    (appendFails reloadFails : Bool) :
    Except String (Bool × FS × List String) :=
  let gf := grammar_file language_choice
  let existing_words := pySplitlines (readFS fs gf)
  if pyLower (pyStrip new_text) ∉ existing_words.map pyLower then
    if appendFails then Except.error "OSError" else
    let fs2 := appendFS fs gf ("\n" ++ pyStrip new_text)
    if reloadFails then Except.error "OSError" else
    Except.ok (true, fs2, load_grammar (readFS fs2 (grammar_file language_choice)))
  else
    Except.ok (true, fs, grammar)

end Skilletz

namespace Skilletz

/-! ### Language consistency of model and grammar -/

/-- State for the model/grammar language pairing.  `self.model` is one of
the three opaque loaded Vosk models, distinguished only by identity
(source lines 28-33, `self.model != self.br_model` etc.), so it is
represented by the language tag of the directory it was loaded from.
`self.grammar` is likewise represented by the language tag of the
names snapshot or file it was loaded from (lines 36-41); the control
flow of `run` never inspects the grammar's content, so this tag is a
sound instrumented view of its provenance. -/
structure LangState where
  language_choice : String
  model : String
  grammarSrc : String
deriving DecidableEq, Repr

/-- `__init__` (source lines 23, 33 and 41): no language chosen yet
(Python `None`), the Spanish model and the Spanish names are active. -/
def initLangState : LangState := ⟨"none", "es-ES", "es-ES"⟩

/-- Source lines 237-238 and 247-255: store the selectbox choice, then
swap model and grammar together whenever the chosen language's model is
not already the active one. -/
def selectModel (s : LangState) (choice : String) : LangState :=
  if choice = "pt-BR" ∧ s.model ≠ "pt-BR" then ⟨choice, "pt-BR", "pt-BR"⟩
  else if choice = "es-ES" ∧ s.model ≠ "es-ES" then ⟨choice, "es-ES", "es-ES"⟩
  else if choice = "it-IT" ∧ s.model ≠ "it-IT" then ⟨choice, "it-IT", "it-IT"⟩
  else ⟨choice, s.model, s.grammarSrc⟩

/-- Source lines 192-198: the reload inside `update_grammar` re-reads the
file selected by the current `language_choice` (`else` falls through to
the Brazilian file). -/
def reloadLang (s : LangState) : LangState :=
  if s.language_choice = "es-ES" then ⟨s.language_choice, s.model, "es-ES"⟩
  else if s.language_choice = "it-IT" then ⟨s.language_choice, s.model, "it-IT"⟩
  else ⟨s.language_choice, s.model, "pt-BR"⟩

/-- One execution of `run` as it affects the language pairing: the
selectbox fires first (line 237), then optionally a manual submission
triggers the reload inside `update_grammar`. -/
def runStepLang (s : LangState) (e : String × Bool) : LangState :=
  let s2 := selectModel s e.1
  if e.2 then reloadLang s2 else s2

end Skilletz

namespace Skilletz

/-- Helper: `reset_session` produces the five-entry store explicitly. -/
theorem reset_session_eq (m : SessionMap) :
    reset_session m =
      [("language_choice", (lookupKey m "language_choice").getD (SVal.s "es-ES")),
       ("current_cycle", SVal.n 0),
       ("recognition_active", SVal.b false),
       ("show_manual_input", SVal.b false),
       ("manual_submitted", SVal.b false)] := rfl

/-- Helper: a key lookup yields `none` exactly when the key is absent. -/
theorem lookupKey_eq_none_iff (m : SessionMap) (k : String) :
    lookupKey m k = none ↔ k ∉ m.map Prod.fst := by
  unfold lookupKey
  rw [Option.map_eq_none', List.find?_eq_none]
  simp only [List.mem_map, beq_iff_eq, not_exists, not_and]

end Skilletz

namespace Skilletz

/-! ### Theorems for claim C1 -/

/-- Helper: the length of the profile list. -/
theorem recognition_cycles_length : recognition_cycles.length = 3 := rfl

/-- C1: in a cycle started from Idle, every reject at tier
`k < len(profiles) - 1` moves to `Listening(k+1)` (tier strictly +1,
never skips); reject at the last tier moves to `ManualFallback`; the tier
index never exceeds `len(profiles) - 1` under any event; after exactly
`len(profiles)` consecutive rejections from Idle the machine is in
`ManualFallback`; and further reject or accept events cause no further
escalation. -/
theorem c1_tier_escalation :
    (∀ k ms, k < recognition_cycles.length - 1 →
      step ⟨k, true, false, ms⟩ .reject = ⟨k + 1, true, false, ms⟩) ∧
    (∀ ms, step ⟨recognition_cycles.length - 1, true, false, ms⟩ .reject =
      ⟨recognition_cycles.length - 1, false, true, ms⟩) ∧
    (∀ s e, s.current_cycle ≤ recognition_cycles.length - 1 →
      (step s e).current_cycle ≤ recognition_cycles.length - 1) ∧
    (List.foldl step resetState [.start, .reject, .reject, .reject] =
      ⟨recognition_cycles.length - 1, false, true, false⟩) ∧
    (∀ ms, step ⟨recognition_cycles.length - 1, false, true, ms⟩ .reject =
      ⟨recognition_cycles.length - 1, false, true, ms⟩) ∧
    (∀ ms, step ⟨recognition_cycles.length - 1, false, true, ms⟩ .accept =
      ⟨recognition_cycles.length - 1, false, true, ms⟩) := by
  refine ⟨?_, ?_, ?_, ?_, ?_, ?_⟩
  · intro k ms h
    simp only [recognition_cycles_length] at h
    simp only [step, recognition_cycles_length]
    rw [if_pos ⟨trivial, trivial, by omega⟩, if_neg (show ¬(k = 3 - 1) by omega)]
  · intro ms
    cases ms <;> decide
  · intro s e h
    rcases s with ⟨c, ra, sm, ms⟩
    simp only [recognition_cycles_length] at h ⊢
    cases e
    case start => exact Nat.zero_le _
    case reset => exact Nat.zero_le _
    case accept =>
      simp only [step, recognition_cycles_length]
      split
      · exact Nat.zero_le _
      · exact h
    case reject =>
      simp only [step, recognition_cycles_length]
      split
      next h1 =>
        split
        next h2 => exact h
        next h2 => show c + 1 ≤ 3 - 1; omega
      next h1 => exact h
    case submit t =>
      simp only [step]
      split
      · exact Nat.zero_le _
      · exact h
  · rfl
  · intro ms
    cases ms <;> decide
  · intro ms
    cases ms <;> decide

/-- Witness for `c1_tier_escalation` at concrete inputs. -/
theorem c1_tier_escalation_witness :
    step ⟨0, true, false, false⟩ .reject = ⟨1, true, false, false⟩ ∧
    step ⟨2, true, false, false⟩ .reject = ⟨2, false, true, false⟩ ∧
    (step ⟨2, true, false, false⟩ .reject).current_cycle ≤ 2 := by
  refine ⟨?_, ?_, ?_⟩
  · exact c1_tier_escalation.1 0 false (by decide)
  · exact c1_tier_escalation.2.1 false
  · exact c1_tier_escalation.2.2.1 ⟨2, true, false, false⟩ .reject (by decide)

end Skilletz

namespace Skilletz

/-! ### Theorems for claims C6 and C9 -/

/-- C6: an explicit reset from any state (any session map, so in
particular `Listening`, `AwaitingConfirmation` and `ManualFallback`)
yields Idle: tier index 0, active-listening and manual-fallback flags
false, and no pending data under any other key (in particular no pending
transcript or manual input). -/
theorem c6_reset_yields_idle (m : SessionMap) :
    lookupKey (reset_session m) "current_cycle" = some (SVal.n 0) ∧
    lookupKey (reset_session m) "recognition_active" = some (SVal.b false) ∧
    lookupKey (reset_session m) "show_manual_input" = some (SVal.b false) ∧
    lookupKey (reset_session m) "manual_submitted" = some (SVal.b false) ∧
    (∀ k : String, k ≠ "language_choice" → k ≠ "current_cycle" →
      k ≠ "recognition_active" → k ≠ "show_manual_input" →
      k ≠ "manual_submitted" → lookupKey (reset_session m) k = none) := by
  refine ⟨rfl, rfl, rfl, rfl, ?_⟩
  intro k h1 h2 h3 h4 h5
  rw [lookupKey_eq_none_iff, reset_session_eq]
  simp only [List.map_cons, List.map_nil, List.mem_cons, List.not_mem_nil,
    or_false, not_or]
  exact ⟨h1, h2, h3, h4, h5⟩

/-- Witness for `c6_reset_yields_idle`: a session in manual-fallback
state with a pending manual input; after reset the cycle fields are
initial and the pending input key is gone. -/
theorem c6_reset_yields_idle_witness :
    lookupKey (reset_session
      [("show_manual_input", SVal.b true), ("manual_input", SVal.s "Lopez")])
      "current_cycle" = some (SVal.n 0) ∧
    lookupKey (reset_session
      [("show_manual_input", SVal.b true), ("manual_input", SVal.s "Lopez")])
      "manual_input" = none := by
  refine ⟨(c6_reset_yields_idle _).1, ?_⟩
  exact (c6_reset_yields_idle
    [("show_manual_input", SVal.b true), ("manual_input", SVal.s "Lopez")]).2.2.2.2
    "manual_input" (by decide) (by decide) (by decide) (by decide) (by decide)

/-- C9: `reset_session` touches only the cycle-state fields: it preserves
the previously selected language choice, defaulting to `es-ES` when none
was set, reinitializes the tier index to 0 and all flags to false, and
the surviving keys are exactly these five — every other key is deleted. -/
theorem c9_reset_frame (m : SessionMap) :
    lookupKey (reset_session m) "language_choice" =
      some ((lookupKey m "language_choice").getD (SVal.s "es-ES")) ∧
    lookupKey (reset_session m) "current_cycle" = some (SVal.n 0) ∧
    lookupKey (reset_session m) "recognition_active" = some (SVal.b false) ∧
    lookupKey (reset_session m) "show_manual_input" = some (SVal.b false) ∧
    lookupKey (reset_session m) "manual_submitted" = some (SVal.b false) ∧
    (reset_session m).map Prod.fst =
      ["language_choice", "current_cycle", "recognition_active",
       "show_manual_input", "manual_submitted"] :=
  ⟨rfl, rfl, rfl, rfl, rfl, rfl⟩

end Skilletz

namespace Skilletz

/-! ### Lemmas about the Python string primitives -/

/-- A string is empty iff its character list is. -/
theorem string_eq_empty_iff (s : String) : s = "" ↔ s.data = [] := by
  constructor
  · intro h; rw [h]
  · intro h; exact String.ext h

/-- Rebuilding a string from its characters is the identity. -/
theorem string_mk_data (s : String) : String.mk s.data = s := by
  cases s; rfl

/-- Splitting a newline-free nonempty chunk yields a single line. -/
theorem pySplitlinesList_no_newline (ys : List Char) :
    ∀ acc : List Char, '\n' ∉ ys → ys ≠ [] →
      pySplitlinesList ys acc = [String.mk (acc.reverse ++ ys)] := by
  induction ys with
  | nil => intro acc _ hne; exact absurd rfl hne
  | cons c cs ih =>
    intro acc h _
    have hc : ¬(c = '\n') := fun hh => h (hh ▸ List.mem_cons_self _ _)
    simp only [pySplitlinesList, if_neg hc]
    rcases eq_or_ne cs [] with h0 | h0
    · subst h0
      simp [pySplitlinesList]
    · rw [ih (c :: acc) (fun hm => h (List.mem_cons_of_mem _ hm)) h0]
      simp

/-- Splitting around an explicit newline: the part before it contributes
all its chunks (including an empty trailing one), the part after it is
split recursively. -/
theorem pySplitlinesList_append_newline (xs : List Char) :
    ∀ acc ys : List Char,
      pySplitlinesList (xs ++ '\n' :: ys) acc =
        splitChunksAll xs acc ++ pySplitlinesList ys [] := by
  induction xs with
  | nil =>
    intro acc ys
    simp [pySplitlinesList, splitChunksAll]
  | cons c cs ih =>
    intro acc ys
    by_cases hc : c = '\n'
    · subst hc
      simp [pySplitlinesList, splitChunksAll, ih]
    · simp only [List.cons_append, pySplitlinesList, splitChunksAll,
        if_neg hc]
      exact ih (c :: acc) ys

/-- When the text does not end in a newline (and chunk plus accumulator
are nonempty), the always-emitting splitter agrees with `splitlines`. -/
theorem splitChunksAll_eq_pySplitlinesList (xs : List Char) :
    ∀ acc : List Char, (xs = [] → acc ≠ []) → xs.getLast? ≠ some '\n' →
      splitChunksAll xs acc = pySplitlinesList xs acc := by
  induction xs with
  | nil =>
    intro acc h _
    have hacc : acc ≠ [] := h rfl
    simp only [splitChunksAll, pySplitlinesList]
    rw [if_neg (by simpa [List.isEmpty_iff] using hacc)]
  | cons c cs ih =>
    intro acc _ hl
    by_cases hc : c = '\n'
    · subst hc
      rcases cs with _ | ⟨d, ds⟩
      · simp at hl
      · show String.mk acc.reverse :: splitChunksAll (d :: ds) [] =
          String.mk acc.reverse :: pySplitlinesList (d :: ds) []
        rw [ih [] (fun h => nomatch h)
          (by rw [← List.getLast?_cons_cons]; exact hl)]
    · simp only [splitChunksAll, pySplitlinesList, if_neg hc]
      refine ih (c :: acc) (fun _ => List.cons_ne_nil c acc) ?_
      rcases cs with _ | ⟨d, ds⟩
      · simp
      · rw [← List.getLast?_cons_cons]; exact hl

/-- Appending a newline plus a newline-free nonempty line to a file and
splitting: the new grammar is the old chunks plus the new line. -/
theorem pySplitlines_append_line (a s : String) (h1 : '\n' ∉ s.data)
    (h2 : s ≠ "") :
    pySplitlines (a ++ "\n" ++ s) = splitChunksAll a.data [] ++ [s] := by
  unfold pySplitlines
  have hd : (a ++ "\n" ++ s).data = a.data ++ '\n' :: s.data := by
    rw [String.data_append, String.data_append]
    show a.data ++ ['\n'] ++ s.data = a.data ++ '\n' :: s.data
    rw [List.append_assoc]
    rfl
  rw [hd, pySplitlinesList_append_newline,
    pySplitlinesList_no_newline s.data [] h1
      (fun h => h2 (String.ext (by simpa using h)))]
  simp [string_mk_data]

/-- In the common case where the old file is nonempty and does not end in
a newline, appending a line extends the grammar by exactly that line. -/
theorem pySplitlines_append_line_clean (a s : String) (h1 : '\n' ∉ s.data)
    (h2 : s ≠ "") (h3 : a ≠ "") (h4 : a.data.getLast? ≠ some '\n') :
    pySplitlines (a ++ "\n" ++ s) = pySplitlines a ++ [s] := by
  rw [pySplitlines_append_line a s h1 h2,
    splitChunksAll_eq_pySplitlinesList a.data []
      (fun h => absurd (String.ext (by simpa using h)) h3) h4]
  rfl

end Skilletz

namespace Skilletz

/-! ### Lemmas about `update_grammar` -/

/-- String append is associative. -/
theorem string_append_assoc (a b c : String) :
    a ++ b ++ c = a ++ (b ++ c) := by
  apply String.ext
  simp [String.data_append, List.append_assoc]

/-- Appending to a file and reading it back. -/
theorem readFS_appendFS (fs : FS) (p t : String) :
    readFS (appendFS fs p t) p = readFS fs p ++ t := by
  simp only [readFS, appendFS]
  split_ifs <;> rfl

/-- The branch of `update_grammar` in which the candidate is already
present (case-insensitively) in the file: nothing changes and `True` is
returned. -/
theorem update_grammar_mem (lang : String) (fs : FS) (g : List String)
    (t : String)
    (h : pyLower (pyStrip t) ∈
      (pySplitlines (readFS fs (grammar_file lang))).map pyLower) :
    update_grammar lang fs g t = (true, fs, g) := by
  simp only [update_grammar]
  rw [if_neg (not_not_intro h)]

/-- The branch of `update_grammar` in which the candidate is new: for a
single-line candidate with nonempty trim, the file gains the line
`"\n" + t.strip()` and the reloaded grammar is the old file's chunks
followed by the stripped candidate. -/
theorem update_grammar_new (lang : String) (fs : FS) (g : List String)
    (t : String)
    (hni : pyLower (pyStrip t) ∉
      (pySplitlines (readFS fs (grammar_file lang))).map pyLower)
    (hne : pyStrip t ≠ "") (hnl : '\n' ∉ (pyStrip t).data) :
    update_grammar lang fs g t =
      (true, appendFS fs (grammar_file lang) ("\n" ++ pyStrip t),
        splitChunksAll (readFS fs (grammar_file lang)).data [] ++
          [pyStrip t]) := by
  simp only [update_grammar, load_grammar]
  rw [if_pos hni, readFS_appendFS, ← string_append_assoc,
    pySplitlines_append_line _ _ hnl hne]

end Skilletz

namespace Skilletz

/-! ### Theorems for claim C2 -/

/-- C2: for a candidate not already present (case-insensitively) in the
grammar file, `update_grammar` reports success and the reloaded grammar
contains the (trimmed) candidate, both literally and case-insensitively;
a second identical call changes nothing (idempotence, so in particular
the size is unchanged).  A candidate already present under
case-insensitive comparison (such as `"Lopez"` over stored `"lopez"`)
leaves file and grammar unchanged and still returns `True`. -/
theorem c2_append_idempotent :
    (∀ (lang : String) (fs : FS) (g : List String) (C : String),
      ¬ containsCI (load_grammar (readFS fs (grammar_file lang))) C →
      pyStrip C ≠ "" → '\n' ∉ (pyStrip C).data →
      (update_grammar lang fs g C).1 = true ∧
      pyStrip C ∈ (update_grammar lang fs g C).2.2 ∧
      containsCI (update_grammar lang fs g C).2.2 C ∧
      update_grammar lang (update_grammar lang fs g C).2.1
          (update_grammar lang fs g C).2.2 C =
        (true, (update_grammar lang fs g C).2.1,
          (update_grammar lang fs g C).2.2)) ∧
    (∀ (lang : String) (fs : FS) (g : List String) (C : String),
      containsCI (load_grammar (readFS fs (grammar_file lang))) C →
      update_grammar lang fs g C = (true, fs, g)) := by
  constructor
  · intro lang fs g C hni hne hnl
    have hni' : pyLower (pyStrip C) ∉
        (pySplitlines (readFS fs (grammar_file lang))).map pyLower := hni
    have hres := update_grammar_new lang fs g C hni' hne hnl
    have hmem : pyStrip C ∈
        splitChunksAll (readFS fs (grammar_file lang)).data [] ++
          [pyStrip C] :=
      List.mem_append_right _ (List.mem_singleton_self _)
    refine ⟨by rw [hres], by rw [hres]; exact hmem, ?_, ?_⟩
    · show pyLower (pyStrip C) ∈ _
      rw [hres]
      exact List.mem_map_of_mem pyLower hmem
    · rw [hres]
      apply update_grammar_mem
      rw [readFS_appendFS, ← string_append_assoc,
        pySplitlines_append_line _ _ hnl hne]
      exact List.mem_map_of_mem pyLower hmem
  · intro lang fs g C h
    exact update_grammar_mem lang fs g C h

/-- Witness for `c2_append_idempotent`: grammar file containing `garcia`
and `lopez`; submitting the new candidate `Fernandez` and the
already-present (different case) candidate `Lopez`. -/
theorem c2_append_idempotent_witness :
    (update_grammar "es-ES" ⟨"garcia\nlopez", "", ""⟩ ["garcia", "lopez"]
        "Fernandez").1 = true ∧
    pyStrip "Fernandez" ∈
      (update_grammar "es-ES" ⟨"garcia\nlopez", "", ""⟩ ["garcia", "lopez"]
        "Fernandez").2.2 ∧
    update_grammar "es-ES" ⟨"garcia\nlopez", "", ""⟩ ["garcia", "lopez"]
        "Lopez" =
      (true, ⟨"garcia\nlopez", "", ""⟩, ["garcia", "lopez"]) := by
  refine ⟨?_, ?_, ?_⟩
  · exact (c2_append_idempotent.1 "es-ES" ⟨"garcia\nlopez", "", ""⟩
      ["garcia", "lopez"] "Fernandez" (by decide) (by decide) (by decide)).1
  · exact (c2_append_idempotent.1 "es-ES" ⟨"garcia\nlopez", "", ""⟩
      ["garcia", "lopez"] "Fernandez" (by decide) (by decide) (by decide)).2.1
  · exact c2_append_idempotent.2 "es-ES" ⟨"garcia\nlopez", "", ""⟩
      ["garcia", "lopez"] "Lopez" (by decide)

end Skilletz

namespace Skilletz

/-! ### Lemmas about `pyStrip`, and theorems for claim C3 -/

/-- The characters of a stripped string, via Mathlib's `rdropWhile`. -/
theorem pyStrip_data (s : String) :
    (pyStrip s).data =
      List.rdropWhile pyIsSpace (List.dropWhile pyIsSpace s.data) := rfl

/-- The head of a `dropWhile` result does not satisfy the predicate. -/
theorem dropWhile_head_not {α : Type} (p : α → Bool) (l : List α) (x : α)
    (xs : List α) (h : l.dropWhile p = x :: xs) : p x = false := by
  induction l with
  | nil => simp at h
  | cons c cs ih =>
    rw [List.dropWhile_cons] at h
    by_cases hc : p c = true
    · rw [if_pos hc] at h
      exact ih h
    · rw [if_neg hc] at h
      injection h with h1 _
      rw [← h1]
      exact Bool.eq_false_iff.mpr hc

/-- Stripping is idempotent. -/
theorem pyStrip_idem (s : String) : pyStrip (pyStrip s) = pyStrip s := by
  apply String.ext
  rw [pyStrip_data (pyStrip s), pyStrip_data s]
  have h1 : List.dropWhile pyIsSpace
      (List.rdropWhile pyIsSpace (List.dropWhile pyIsSpace s.data)) =
      List.rdropWhile pyIsSpace (List.dropWhile pyIsSpace s.data) := by
    obtain ⟨t, ht⟩ :=
      List.rdropWhile_prefix pyIsSpace (List.dropWhile pyIsSpace s.data)
    rcases hn : List.rdropWhile pyIsSpace (List.dropWhile pyIsSpace s.data)
      with _ | ⟨x, xs⟩
    · rfl
    · rw [hn] at ht
      have hx : pyIsSpace x = false := by
        apply dropWhile_head_not pyIsSpace s.data x (xs ++ t)
        rw [← ht]
        simp
      rw [List.dropWhile_cons, if_neg (by simp [hx])]
  rw [h1, List.rdropWhile_idempotent]

/-- Appending a fresh entry preserves `Nodup` of the lowered grammar. -/
theorem nodup_concat_of_not_mem {α : Type} [DecidableEq α] (l : List α)
    (a : α) (h1 : l.Nodup) (h2 : a ∉ l) : (l ++ [a]).Nodup := by
  rw [List.nodup_append]
  exact ⟨h1, List.nodup_singleton a, by
    intro x hx hxa
    rw [List.mem_singleton] at hxa
    exact h2 (hxa ▸ hx)⟩

/-- C3 counterexample: `load_grammar` performs no normalization, so a
backing file with a case-insensitive duplicate, an empty line and an
untrimmed line produces a grammar violating the invariant claimed for
every loaded grammar. -/
theorem c3_load_invariant_counterexample :
    load_grammar (readFS ⟨"garcia\nGarcia\n\n lopez", "", ""⟩
        (grammar_file "es-ES")) =
      ["garcia", "Garcia", "", " lopez"] ∧
    ¬ grammarInvariant (load_grammar (readFS ⟨"garcia\nGarcia\n\n lopez", "", ""⟩
        (grammar_file "es-ES"))) := by
  constructor
  · rfl
  · decide

/-- C3 amended: `load_grammar` returns the file's lines verbatim, so the
invariant holds only when the backing file already satisfies it; it is
then preserved by `update_grammar` for single-line candidates with
nonempty trim, as long as the file is nonempty and does not end in a
newline: the appended entry is the trimmed candidate and is not a
case-insensitive duplicate. -/
theorem c3_load_invariant_amended :
    ∀ (lang : String) (fs : FS) (g : List String) (C : String),
      grammarInvariant (load_grammar (readFS fs (grammar_file lang))) →
      readFS fs (grammar_file lang) ≠ "" →
      (readFS fs (grammar_file lang)).data.getLast? ≠ some '\n' →
      pyStrip C ≠ "" → '\n' ∉ (pyStrip C).data →
      grammarInvariant (load_grammar
        (readFS (update_grammar lang fs g C).2.1 (grammar_file lang))) := by
  intro lang fs g C hinv hne hlast hCne hCnl
  by_cases hin : pyLower (pyStrip C) ∈
      (pySplitlines (readFS fs (grammar_file lang))).map pyLower
  · rw [update_grammar_mem lang fs g C hin]
    exact hinv
  · rw [update_grammar_new lang fs g C hin hCne hCnl]
    show grammarInvariant (load_grammar (readFS (appendFS fs _ _) _))
    rw [show readFS (appendFS fs (grammar_file lang)
          ("\n" ++ pyStrip C)) (grammar_file lang) =
        readFS fs (grammar_file lang) ++ ("\n" ++ pyStrip C) from
      readFS_appendFS fs (grammar_file lang) ("\n" ++ pyStrip C)]
    unfold load_grammar
    rw [← string_append_assoc,
      pySplitlines_append_line_clean _ _ hCnl hCne hne hlast]
    obtain ⟨hnodup, htrim, hempty⟩ := hinv
    refine ⟨?_, ?_, ?_⟩
    · rw [List.map_append]
      exact nodup_concat_of_not_mem _ _ hnodup hin
    · intro w hw
      rcases List.mem_append.1 hw with hw | hw
      · exact htrim w hw
      · rw [List.mem_singleton] at hw
        rw [hw]
        exact pyStrip_idem C
    · intro hmem
      rcases List.mem_append.1 hmem with hmem | hmem
      · exact hempty hmem
      · rw [List.mem_singleton] at hmem
        exact hCne hmem.symm

/-- Witness for `c3_load_invariant_amended` on the grammar
`{garcia, lopez}` and candidate `Fernandez`. -/
theorem c3_load_invariant_amended_witness :
    grammarInvariant (load_grammar
      (readFS (update_grammar "es-ES" ⟨"garcia\nlopez", "", ""⟩
          ["garcia", "lopez"] "Fernandez").2.1
        (grammar_file "es-ES"))) :=
  c3_load_invariant_amended "es-ES" ⟨"garcia\nlopez", "", ""⟩
    ["garcia", "lopez"] "Fernandez" (by decide) (by decide) (by decide)
    (by decide) (by decide)

end Skilletz

namespace Skilletz

/-! ### Theorems for claims C4 and C5 -/

/-- C4 counterexample: from manual fallback, submitting `"Fernandez"`
appends the trimmed text with its original case — the grammar gains
`"Fernandez"`, not the normalized form `"fernandez"` named by the
claim. -/
theorem c4_manual_submit_counterexample :
    "fernandez" ∉ c4run.grammar ∧
    "Fernandez" ∈ c4run.grammar ∧
    readFS c4run.fs (grammar_file "es-ES") = "garcia\nlopez\nFernandez" := by
  decide

/-- C4 amended: after all tiers are exhausted, submitting a non-empty,
new (case-insensitively), single-line manual text with nonempty trim
trims it, appends the trimmed text with its original case to the grammar
file, reloads the grammar so the in-memory copy contains the trimmed
text (and matches the submission case-insensitively), and transitions
the state machine to Idle. -/
theorem c4_manual_submit_amended :
    ∀ (fs : FS) (g : List String) (C : String) (ms : Bool),
      C ≠ "" →
      ¬ containsCI (load_grammar (readFS fs (grammar_file "es-ES"))) C →
      pyStrip C ≠ "" → '\n' ∉ (pyStrip C).data →
      (fullStep "es-ES" ⟨⟨2, false, true, ms⟩, fs, g⟩ (Ev.submit C)).sess =
        resetState ∧
      readFS (fullStep "es-ES" ⟨⟨2, false, true, ms⟩, fs, g⟩
          (Ev.submit C)).fs (grammar_file "es-ES") =
        readFS fs (grammar_file "es-ES") ++ "\n" ++ pyStrip C ∧
      (fullStep "es-ES" ⟨⟨2, false, true, ms⟩, fs, g⟩
          (Ev.submit C)).grammar =
        load_grammar (readFS (fullStep "es-ES" ⟨⟨2, false, true, ms⟩, fs, g⟩
          (Ev.submit C)).fs (grammar_file "es-ES")) ∧
      pyStrip C ∈ (fullStep "es-ES" ⟨⟨2, false, true, ms⟩, fs, g⟩
          (Ev.submit C)).grammar ∧
      containsCI (fullStep "es-ES" ⟨⟨2, false, true, ms⟩, fs, g⟩
          (Ev.submit C)).grammar C := by
  intro fs g C ms hC hni hne hnl
  have hni' : pyLower (pyStrip C) ∉
      (pySplitlines (readFS fs (grammar_file "es-ES"))).map pyLower := hni
  have hr := update_grammar_new "es-ES" fs g C hni' hne hnl
  have hstep : fullStep "es-ES" ⟨⟨2, false, true, ms⟩, fs, g⟩
      (Ev.submit C) =
      ⟨resetState, (update_grammar "es-ES" fs g C).2.1,
        (update_grammar "es-ES" fs g C).2.2⟩ := by
    simp only [fullStep]
    rw [if_pos ⟨trivial, hC⟩]
  rw [hstep, hr]
  have hmem : pyStrip C ∈
      splitChunksAll (readFS fs (grammar_file "es-ES")).data [] ++
        [pyStrip C] :=
    List.mem_append_right _ (List.mem_singleton_self _)
  refine ⟨rfl, ?_, ?_, hmem, ?_⟩
  · rw [show ((true, appendFS fs (grammar_file "es-ES") ("\n" ++ pyStrip C),
        splitChunksAll (readFS fs (grammar_file "es-ES")).data [] ++
          [pyStrip C]) : Bool × FS × List String).2.1 =
      appendFS fs (grammar_file "es-ES") ("\n" ++ pyStrip C) from rfl]
    rw [readFS_appendFS]
    exact (string_append_assoc _ _ _).symm
  · show splitChunksAll (readFS fs (grammar_file "es-ES")).data [] ++
        [pyStrip C] =
      load_grammar (readFS (appendFS fs (grammar_file "es-ES")
        ("\n" ++ pyStrip C)) (grammar_file "es-ES"))
    unfold load_grammar
    rw [readFS_appendFS, ← string_append_assoc,
      pySplitlines_append_line _ _ hnl hne]
  · show pyLower (pyStrip C) ∈ _
    exact List.mem_map_of_mem pyLower hmem

/-- Witness for `c4_manual_submit_amended` on `fs0` and `Fernandez`. -/
theorem c4_manual_submit_amended_witness :
    (fullStep "es-ES" ⟨⟨2, false, true, false⟩, fs0, g0⟩
        (Ev.submit "Fernandez")).sess = resetState ∧
    pyStrip "Fernandez" ∈ (fullStep "es-ES" ⟨⟨2, false, true, false⟩, fs0, g0⟩
        (Ev.submit "Fernandez")).grammar := by
  refine ⟨?_, ?_⟩
  · exact (c4_manual_submit_amended fs0 g0 "Fernandez" false (by decide)
      (by decide) (by decide) (by decide)).1
  · exact (c4_manual_submit_amended fs0 g0 "Fernandez" false (by decide)
      (by decide) (by decide) (by decide)).2.2.2.1

/-- C5 counterexample: a whitespace-only (but nonempty) manual submission
is not rejected by the boundary check `if submit_button and manual_text:`
— the state does not remain in manual fallback (it is reset to Idle) and
the vocabulary file is modified (it gains a bare newline). -/
theorem c5_whitespace_submit_counterexample :
    c5run.sess.show_manual_input = false ∧
    c5run.sess = resetState ∧
    c5run.fs ≠ fs0 ∧
    readFS c5run.fs (grammar_file "es-ES") = "garcia\nlopez\n" := by
  decide

/-- C5 amended: only the empty manual submission is rejected at the
boundary — the whole application state is unchanged, so the machine
remains in manual fallback for re-entry.  A whitespace-only nonempty
submission instead passes the truthiness check: it appends a bare
newline to the vocabulary file, leaves the in-memory grammar list
unchanged, and resets the session to Idle. -/
theorem c5_empty_submit_amended :
    (∀ (lang : String) (a : AppFull), fullStep lang a (Ev.submit "") = a) ∧
    c5run.sess = resetState ∧
    readFS c5run.fs (grammar_file "es-ES") = "garcia\nlopez\n" ∧
    c5run.grammar = g0 := by
  refine ⟨?_, by decide, by decide, by decide⟩
  intro lang a
  simp only [fullStep]
  rw [if_neg (fun h => h.2 rfl)]

end Skilletz

namespace Skilletz

/-! ### Lemmas about candidate extraction, and theorems for claim C7 -/

/-- Joining a single string with any separator returns the string. -/
theorem intercalate_singleton (s a : String) :
    String.intercalate s [a] = a := rfl

/-- Dropping all but the last element of a nonempty list. -/
theorem drop_length_sub_one {α : Type} :
    ∀ (l : List α) (h : l ≠ []), l.drop (l.length - 1) = [l.getLast h]
  | [], h => absurd rfl h
  | [x], _ => rfl
  | x :: y :: rest, _ => by
    have ih := drop_length_sub_one (y :: rest) (List.cons_ne_nil _ _)
    rw [List.getLast_cons_cons]
    show (y :: rest).drop ((y :: rest).length - 1) = _
    exact ih

/-- Splitting a whitespace-free chunk: a single token made of the
accumulator and the chunk. -/
theorem pySplitWsList_no_space (l : List Char) :
    ∀ acc : List Char, (∀ c ∈ l, pyIsSpace c = false) →
      (l ≠ [] ∨ acc ≠ []) →
      pySplitWsList l acc = [String.mk (acc.reverse ++ l)] := by
  induction l with
  | nil =>
    intro acc _ hne
    have hacc : acc ≠ [] := hne.resolve_left (fun h => h rfl)
    simp only [pySplitWsList]
    rw [if_neg (by simpa [List.isEmpty_iff] using hacc)]
    simp
  | cons c cs ih =>
    intro acc h _
    have hc : pyIsSpace c = false := h c (List.mem_cons_self _ _)
    simp only [pySplitWsList]
    rw [if_neg (by simp [hc])]
    rw [ih (c :: acc) (fun x hx => h x (List.mem_cons_of_mem _ hx))
      (Or.inr (List.cons_ne_nil _ _))]
    simp

/-- A nonempty whitespace-free transcript is a single token. -/
theorem pySplitWs_no_space (t : String)
    (h : ∀ c ∈ t.data, pyIsSpace c = false) (hne : t ≠ "") :
    pySplitWs t = [t] := by
  unfold pySplitWs
  rw [pySplitWsList_no_space t.data [] h
    (Or.inl (fun hd => hne (String.ext (by simpa using hd))))]
  simp [string_mk_data]

/-- C7: the derived candidate is the last whitespace-delimited token of
the transcript; a whitespace-free nonempty transcript is its own
candidate (the whole transcript); the empty transcript yields the empty
candidate; and any transcript — the empty one included — proceeds to the
confirmation stage at the current tier, with the tier consumed by the
subsequent reject exactly as for any other attempt. -/
theorem c7_candidate_extraction :
    (∀ (t : String) (h : pySplitWs t ≠ []),
      last_name t = (pySplitWs t).getLast h) ∧
    (∀ t : String, (∀ c ∈ t.data, pyIsSpace c = false) → t ≠ "" →
      last_name t = t) ∧
    last_name "" = "" ∧
    (∀ (k : Nat) (ms : Bool), k < recognition_cycles.length →
      attempt_result ⟨k, true, false, ms⟩ "" = some ("", k)) ∧
    (∀ (k : Nat) (ms : Bool) (t : String), k < recognition_cycles.length →
      attempt_result ⟨k, true, false, ms⟩ t = some (last_name t, k)) := by
  have hlast : ∀ (t : String) (h : pySplitWs t ≠ []),
      last_name t = (pySplitWs t).getLast h := by
    intro t h
    simp only [last_name]
    rw [if_pos (show (pySplitWs t).length ≥ 1 from List.length_pos.mpr h),
      drop_length_sub_one _ h, intercalate_singleton]
  have hattempt : ∀ (k : Nat) (ms : Bool) (t : String),
      k < recognition_cycles.length →
      attempt_result ⟨k, true, false, ms⟩ t = some (last_name t, k) := by
    intro k ms t hk
    simp only [attempt_result]
    rw [if_pos ⟨trivial, trivial, hk⟩]
  refine ⟨hlast, ?_, rfl, fun k ms hk => hattempt k ms "" hk, hattempt⟩
  intro t hns hne
  have hsplit : pySplitWs t = [t] := pySplitWs_no_space t hns hne
  have hgl : ∀ (l : List String) (hl : l ≠ []), l = [t] → l.getLast hl = t := by
    intro l hl he
    subst he
    rfl
  have hne' : pySplitWs t ≠ [] := by
    rw [hsplit]
    exact List.cons_ne_nil _ _
  exact (hlast t hne').trans (hgl _ hne' hsplit)

/-- Witness for `c7_candidate_extraction`: the transcript
`"ana garcia"` yields candidate `garcia`; the empty transcript at tier 0
proceeds to confirmation with the empty candidate. -/
theorem c7_candidate_extraction_witness :
    last_name "ana garcia" = (pySplitWs "ana garcia").getLast (by decide) ∧
    last_name "garcia" = "garcia" ∧
    attempt_result ⟨0, true, false, false⟩ "" = some ("", 0) := by
  refine ⟨c7_candidate_extraction.1 "ana garcia" (by decide), ?_, ?_⟩
  · exact c7_candidate_extraction.2.1 "garcia" (by decide) (by decide)
  · exact c7_candidate_extraction.2.2.2.1 0 false (by decide)

end Skilletz

namespace Skilletz

/-! ### Theorems for claim C8 -/

/-- C8 counterexample: when the durable append raises an I/O error while
a new candidate is being persisted, `update_grammar` does not return
success — the exception propagates out of the method (there is no
try/except and no warning path), contradicting the claim that append
still reports success to the caller. -/
theorem c8_io_failure_counterexample :
    update_grammarE "es-ES" fs0 g0 "Fernandez" true false =
      Except.error "OSError" := rfl

/-- C8 amended: an I/O failure during the durable vocabulary append or
during the reload is fatal for the call: `update_grammar` contains no
exception handler, so the error propagates to the caller instead of
being reported as a warning, and no success value is returned. -/
theorem c8_io_failure_amended :
    ∀ (lang : String) (fs : FS) (g : List String) (C : String)
      (af rf : Bool),
      ¬ containsCI (load_grammar (readFS fs (grammar_file lang))) C →
      (af = true ∨ rf = true) →
      update_grammarE lang fs g C af rf = Except.error "OSError" := by
  intro lang fs g C af rf hni hfail
  simp only [update_grammarE]
  rw [if_pos (show pyLower (pyStrip C) ∉
    List.map pyLower (pySplitlines (readFS fs (grammar_file lang))) from hni)]
  cases af
  · rcases hfail with h | h
    · exact absurd h (by simp)
    · subst h
      rfl
  · rfl

/-- Witness for `c8_io_failure_amended`: a failing reload while appending
`Fernandez` to the `{garcia, lopez}` grammar. -/
theorem c8_io_failure_amended_witness :
    update_grammarE "es-ES" fs0 g0 "Fernandez" false true =
      Except.error "OSError" :=
  c8_io_failure_amended "es-ES" fs0 g0 "Fernandez" false true (by decide)
    (Or.inr rfl)

end Skilletz

namespace Skilletz

/-! ### Theorems for claim C10 -/

/-- Valid selectbox choices (source line 237). -/
def validChoice (c : String) : Prop :=
  c = "es-ES" ∨ c = "pt-BR" ∨ c = "it-IT"

instance (c : String) : Decidable (validChoice c) := by
  unfold validChoice; infer_instance

/-- After the language-sync block, model and grammar are both those of
the chosen language. -/
theorem selectModel_valid (s : LangState) (c : String) (hc : validChoice c)
    (hI : s.model = s.grammarSrc) : selectModel s c = ⟨c, c, c⟩ := by
  rcases s with ⟨lc, m, gs⟩
  simp only at hI
  subst hI
  rcases hc with h | h | h <;> subst h
  · by_cases hm : m = "es-ES"
    · simp only [selectModel]
      rw [if_neg (fun hh => absurd hh.1 (by decide)),
        if_neg (fun hh => hh.2 hm),
        if_neg (fun hh => absurd hh.1 (by decide))]
      rw [hm]
    · simp only [selectModel]
      rw [if_neg (fun hh => absurd hh.1 (by decide)), if_pos ⟨trivial, hm⟩]
  · by_cases hm : m = "pt-BR"
    · simp only [selectModel]
      rw [if_neg (fun hh => hh.2 hm),
        if_neg (fun hh => absurd hh.1 (by decide)),
        if_neg (fun hh => absurd hh.1 (by decide))]
      rw [hm]
    · simp only [selectModel]
      rw [if_pos ⟨trivial, hm⟩]
  · by_cases hm : m = "it-IT"
    · simp only [selectModel]
      rw [if_neg (fun hh => absurd hh.1 (by decide)),
        if_neg (fun hh => absurd hh.1 (by decide)),
        if_neg (fun hh => hh.2 hm)]
      rw [hm]
    · simp only [selectModel]
      rw [if_neg (fun hh => absurd hh.1 (by decide)),
        if_neg (fun hh => absurd hh.1 (by decide)), if_pos ⟨trivial, hm⟩]

/-- Reloading under a valid active language keeps the pairing. -/
theorem reloadLang_valid (c : String) (hc : validChoice c) :
    reloadLang ⟨c, c, c⟩ = ⟨c, c, c⟩ := by
  rcases hc with h | h | h <;> subst h <;> rfl

/-- One `run` execution preserves the model/grammar language pairing. -/
theorem runStepLang_inv (s : LangState) (e : String × Bool)
    (he : validChoice e.1) (hI : s.model = s.grammarSrc) :
    (runStepLang s e).model = (runStepLang s e).grammarSrc := by
  rcases e with ⟨c, d⟩
  simp only [runStepLang]
  rw [selectModel_valid s c he hI]
  cases d
  · rfl
  · rw [if_pos rfl, reloadLang_valid c he]

/-- The pairing invariant holds along any sequence of `run` executions. -/
theorem foldl_runStepLang_inv :
    ∀ (evs : List (String × Bool)) (s : LangState),
      (∀ e ∈ evs, validChoice e.1) → s.model = s.grammarSrc →
      (evs.foldl runStepLang s).model =
        (evs.foldl runStepLang s).grammarSrc := by
  intro evs
  induction evs with
  | nil => intro s _ h; exact h
  | cons e rest ih =>
    intro s hv hI
    exact ih (runStepLang s e)
      (fun x hx => hv x (List.mem_cons_of_mem _ hx))
      (runStepLang_inv s e (hv e (List.mem_cons_self _ _)) hI)

/-- C10: at initialization the Spanish model and the Spanish grammar are
active; every language change swaps model and grammar together (after the
sync block both carry the chosen language); and along any sequence of
`run` executions — each a selectbox choice optionally followed by a
grammar reload after an append, which re-reads the file of the currently
active language — the active model and the active grammar always belong
to the same language. -/
theorem c10_model_grammar_language :
    initLangState.model = "es-ES" ∧ initLangState.grammarSrc = "es-ES" ∧
    (∀ (s : LangState) (c : String), validChoice c →
      s.model = s.grammarSrc → selectModel s c = ⟨c, c, c⟩) ∧
    (∀ evs : List (String × Bool), (∀ e ∈ evs, validChoice e.1) →
      (evs.foldl runStepLang initLangState).model =
        (evs.foldl runStepLang initLangState).grammarSrc) :=
  ⟨rfl, rfl, selectModel_valid,
    fun evs hv => foldl_runStepLang_inv evs initLangState hv rfl⟩

/-- Witness for `c10_model_grammar_language`: switch to Brazilian
Portuguese and submit a manual correction (reload), then switch to
Italian: model and grammar still agree. -/
theorem c10_model_grammar_language_witness :
    selectModel initLangState "pt-BR" = ⟨"pt-BR", "pt-BR", "pt-BR"⟩ ∧
    ([("pt-BR", true), ("it-IT", false)].foldl runStepLang
        initLangState).model =
      ([("pt-BR", true), ("it-IT", false)].foldl runStepLang
        initLangState).grammarSrc := by
  refine ⟨?_, ?_⟩
  · exact c10_model_grammar_language.2.2.1 initLangState "pt-BR" (by decide) rfl
  · exact c10_model_grammar_language.2.2.2 [("pt-BR", true), ("it-IT", false)]
      (by decide)

end Skilletz

namespace Skilletz

/-- Witness for `c5_empty_submit_amended`: submitting the empty string
from manual fallback changes nothing. -/
theorem c5_empty_submit_amended_witness :
    fullStep "es-ES" ⟨fallback0, fs0, g0⟩ (Ev.submit "") =
      ⟨fallback0, fs0, g0⟩ :=
  c5_empty_submit_amended.1 "es-ES" ⟨fallback0, fs0, g0⟩

/-- Witness for `c9_reset_frame`: with no stored language the default
`es-ES` is kept; a stored `pt-BR` choice survives the reset. -/
theorem c9_reset_frame_witness :
    lookupKey (reset_session ([] : SessionMap)) "language_choice" =
      some (SVal.s "es-ES") ∧
    lookupKey (reset_session [("language_choice", SVal.s "pt-BR"),
        ("current_cycle", SVal.n 2)]) "language_choice" =
      some (SVal.s "pt-BR") :=
  ⟨(c9_reset_frame []).1,
   (c9_reset_frame [("language_choice", SVal.s "pt-BR"),
      ("current_cycle", SVal.n 2)]).1⟩

end Skilletz
